import Mathlib

/-!
Verification of the golang-server-template user service.

This file shallowly embeds the repository's core logic:
- the data model and validation-message table (internal/model/user.go),
- the in-memory user store (internal/service/user.go),
- the HTTP handler layer's parameter parsing and error-to-status mapping
  (internal/handler/handler.go).

Modelling conventions:
- The Go map `map[int]*model.User` is modelled as a `List User` in internal
  enumeration order, keyed by the `id` field.  The service only ever inserts
  under the fresh key `nextID`, so the list always has pairwise-distinct ids
  (proved below as an invariant), and list update/delete by id coincides with
  Go map assignment/deletion.
- Each call to an operation receives the current clock reading as an explicit
  `now : Int` parameter; the two `time.Now()` calls inside `CreateUser` happen
  within one operation and are modelled as the same instant.
- Go `error` results are modelled with `Except String`, carrying the exact
  message strings that `fmt.Errorf` builds in the source.
- A Go runtime panic (integer division by zero, negative slice index,
  negative `make` capacity) is modelled as `none`.
- Go `int` is 64-bit; the store's counter and ages stay far below overflow in
  every behaviour the claims quantify over, so they are modelled as `Int`.
  `strconv.Atoi`, whose range failure is observable at the HTTP boundary,
  models the 64-bit range check explicitly.
-/

/-- model.User (internal/model/user.go). -/
structure User where
  id : Int
  email : String
  firstName : String
  lastName : String
  age : Int
  phone : String
  status : String
  createdAt : Int
  updatedAt : Int
deriving DecidableEq

/-- model.CreateUserRequest. -/
structure CreateUserRequest where
  email : String
  firstName : String
  lastName : String
  age : Int
  phone : String
deriving DecidableEq

/-- model.UpdateUserRequest: every field optional (`*T`, nil = absent). -/
structure UpdateUserRequest where
  email : Option String
  firstName : Option String
  lastName : Option String
  age : Option Int
  phone : Option String
  status : Option String
deriving DecidableEq

/-- model.MetaData. -/
structure MetaData where
  page : Int
  perPage : Int
  total : Int
  totalPages : Int
deriving DecidableEq

/-- model.UserListResponse. -/
structure UserListResponse where
  users : List User
  meta : MetaData
deriving DecidableEq

/-- service.UserService: the record collection and the identifier counter. -/
structure UserService where
  users : List User
  nextID : Int
deriving DecidableEq

/-- service.NewUserService: empty map, counter starts at 1. -/
def newUserService : UserService := { users := [], nextID := 1 }

/-- The exact message of `fmt.Errorf("user with ID %d not found", id)`. -/
def notFoundMsg (id : Int) : String :=
  "user with ID " ++ toString id ++ " not found"

/-- The exact message of `fmt.Errorf("user with email %s already exists", email)`. -/
def duplicateEmailMsg (email : String) : String :=
  "user with email " ++ email ++ " already exists"

/-- The record literal built inside service.UserService.CreateUser. -/
def newRecord (s : UserService) (req : CreateUserRequest) (now : Int) : User :=
  { id := s.nextID, email := req.email, firstName := req.firstName,
    lastName := req.lastName, age := req.age, phone := req.phone,
    status := "active", createdAt := now, updatedAt := now }

/-- service.UserService.CreateUser: scan for a duplicate email (case-sensitive
`==`), otherwise build the record with id `nextID`, status "active", both
timestamps the current time, insert it and advance the counter. -/
def createUser (s : UserService) (req : CreateUserRequest) (now : Int) :
    Except String (UserService × User) :=
  if s.users.any (fun u => u.email == req.email) then
    Except.error (duplicateEmailMsg req.email)
  else
    let user := newRecord s req now
    Except.ok ({ users := s.users ++ [user], nextID := s.nextID + 1 }, user)

/-- service.UserService.GetUser. -/
def getUser (s : UserService) (id : Int) : Except String User :=
  match s.users.find? (fun u => u.id == id) with
  | none => Except.error (notFoundMsg id)
  | some user => Except.ok user

/-- The in-place field assignments of service.UserService.UpdateUser: each
present field overwrites, each absent field is kept, `UpdatedAt` refreshed. -/
def applyUpdate (u : User) (req : UpdateUserRequest) (now : Int) : User :=
  { u with
    email := req.email.getD u.email,
    firstName := req.firstName.getD u.firstName,
    lastName := req.lastName.getD u.lastName,
    age := req.age.getD u.age,
    phone := req.phone.getD u.phone,
    status := req.status.getD u.status,
    updatedAt := now }

/-- The guard of UpdateUser's uniqueness re-check: the payload's email is
present, differs from the record's current email, and some record with a
different id already carries it. -/
def emailCollides (s : UserService) (id : Int) (user : User) (req : UpdateUserRequest) : Bool :=
  match req.email with
  | some e => e != user.email && s.users.any (fun u2 => u2.id != id && u2.email == e)
  | none => false

/-- service.UserService.UpdateUser: look up the record; if the payload carries
an email different from the current one, scan all records other than this id
for a collision; then apply the present fields and refresh `UpdatedAt`. -/
def updateUser (s : UserService) (id : Int) (req : UpdateUserRequest) (now : Int) :
    Except String (UserService × User) :=
  match s.users.find? (fun u => u.id == id) with
  | none => Except.error (notFoundMsg id)
  | some user =>
    if emailCollides s id user req then
      Except.error (duplicateEmailMsg (req.email.getD ""))
    else
      Except.ok
        ({ s with users := s.users.map (fun u => if u.id == id then applyUpdate u req now else u) },
         applyUpdate user req now)

/-- service.UserService.DeleteUser. -/
def deleteUser (s : UserService) (id : Int) : Except String UserService :=
  if s.users.any (fun u => u.id == id) then
    Except.ok { s with users := s.users.filter (fun u => u.id != id) }
  else
    Except.error (notFoundMsg id)

/-- Go's 64-bit `int` two's-complement wraparound: the unique value in
[-2^63, 2^63) congruent mod 2^64. Go integer arithmetic wraps silently. -/
def wrap64 (n : Int) : Int := (n + 2 ^ 63) % 2 ^ 64 - 2 ^ 63

/-- service.UserService.ListUsers.  `Int.tdiv` is Go's truncating integer
division, and every arithmetic step is wrapped to 64 bits as Go's `int`
wraps (Go also defines MinInt64 / -1 as wrapping, hence the `wrap64` around
the quotient).  `none` marks the Go runtime panics: division by zero when
`perPage = 0`; the `make([]model.User, 0, end-start)` capacity when the
mathematical `stop2 - start` is negative (a plain negative capacity panics,
and when the difference wraps below -2^63 the Go capacity wraps to at least
2^63 - total, far above the runtime's maximum slice allocation, which also
panics); and the negative slice index `allUsers[start]` when `start < 0`
(the loop is then non-empty, because `stop2 = start` would force
`perPage = 0` or `total = start < 0`).  On every non-panicking path the Go
code returns a nil error, hence always `Except.ok`. -/
def listUsers (s : UserService) (page perPage : Int) :
    Option (Except String UserListResponse) :=
  let total : Int := s.users.length
  if perPage == 0 then
    none
  else
    let totalPages := wrap64 (Int.tdiv (wrap64 (total + perPage - 1)) perPage)
    let start := wrap64 (wrap64 (page - 1) * perPage)
    let stop := wrap64 (start + perPage)
    if start ≥ total then
      some (Except.ok
        { users := [],
          meta := { page := page, perPage := perPage, total := total, totalPages := totalPages } })
    else
      let stop2 := if stop > total then total else stop
      if stop2 - start < 0 then
        none
      else if start < 0 then
        none
      else
        some (Except.ok
          { users := (s.users.drop start.toNat).take (stop2 - start).toNat,
            meta := { page := page, perPage := perPage, total := total, totalPages := totalPages } })

/-- One mutating store call, as dispatched by the handler layer.  The clock
reading at the time of the call is part of the operation. -/
inductive Op where
  | create (req : CreateUserRequest) (now : Int)
  | update (id : Int) (req : UpdateUserRequest) (now : Int)
  | delete (id : Int)

/-- The store state after one operation (a failed operation, which returns
before any assignment in the Go code, leaves the state unchanged). -/
def applyOp (s : UserService) : Op → UserService
  | Op.create req now =>
      match createUser s req now with
      | Except.ok (s2, _) => s2
      | Except.error _ => s
  | Op.update id req now =>
      match updateUser s id req now with
      | Except.ok (s2, _) => s2
      | Except.error _ => s
  | Op.delete id =>
      match deleteUser s id with
      | Except.ok s2 => s2
      | Except.error _ => s

/-- The store state after a sequence of operations. -/
def runOps (s : UserService) (ops : List Op) : UserService :=
  ops.foldl applyOp s

/-- All live records have pairwise-distinct ids. -/
def idsDistinct (s : UserService) : Prop :=
  s.users.Pairwise (fun a b => a.id ≠ b.id)

/-- All live records have pairwise-distinct emails. -/
def emailsDistinct (s : UserService) : Prop :=
  s.users.Pairwise (fun a b => a.email ≠ b.email)

/-- Every live id is below the counter (so the next allocation is fresh). -/
def idsBelowNext (s : UserService) : Prop :=
  ∀ u ∈ s.users, u.id < s.nextID

/-- The store's internal invariant. -/
def StoreInv (s : UserService) : Prop :=
  idsDistinct s ∧ emailsDistinct s ∧ idsBelowNext s

/-- Go strconv.Atoi on a 64-bit platform: optional sign, then at least one
decimal digit and nothing else; fails (ErrRange) outside the int64 range. -/
def atoi (str : String) : Option Int :=
  let cs := str.toList
  let signed : Bool × List Char :=
    match cs with
    | '-' :: rest => (true, rest)
    | '+' :: rest => (false, rest)
    | _ => (false, cs)
  if signed.2.isEmpty then
    none
  else if signed.2.all (fun c => 48 ≤ c.toNat && c.toNat ≤ 57) then
    let n : Nat := signed.2.foldl (fun acc c => acc * 10 + (c.toNat - 48)) 0
    let v : Int := if signed.1 then -(n : Int) else (n : Int)
    if v < -(2 ^ 63) ∨ 2 ^ 63 - 1 < v then none else some v
  else
    none

/-- Handler.ListUsers page parsing: Echo's QueryParam yields "" for an absent
parameter; the default 1 survives unless Atoi succeeds with a positive value. -/
def listUsersPage (pageParam : String) : Int :=
  if pageParam != "" then
    match atoi pageParam with
    | some p => if p > 0 then p else 1
    | none => 1
  else
    1

/-- Handler.ListUsers per_page parsing: default 10 unless Atoi succeeds with a
value in (0, 100]. -/
def listUsersPerPage (perPageParam : String) : Int :=
  if perPageParam != "" then
    match atoi perPageParam with
    | some pp => if pp > 0 && pp ≤ 100 then pp else 10
    | none => 10
  else
    10

/-- Handler.ListUsers: parse the two query parameters, call the store, answer
500 on a non-nil error and 200 otherwise.  The outer `none` propagates a store
panic (which would bypass this handler's status logic entirely). -/
def handlerListUsers (s : UserService) (pageParam perPageParam : String) :
    Option (Int × Option UserListResponse) :=
  let page := listUsersPage pageParam
  let perPage := listUsersPerPage perPageParam
  match listUsers s page perPage with
  | none => none
  | some (Except.error _) => some (500, none)
  | some (Except.ok resp) => some (200, some resp)

/-- Handler.UpdateUser's error-to-status mapping: status starts at 500 and is
replaced only when the error string equals one of two fixed literals. -/
def updateErrorStatus (msg : String) : Int :=
  if msg == "user not found" then 404
  else if msg == "email already exists" then 409
  else 500

/-- Handler.UpdateUser after a parsed id and a bound, validated body: call the
store and map the outcome to an HTTP status. -/
def handlerUpdateUser (s : UserService) (id : Int) (req : UpdateUserRequest) (now : Int) : Int :=
  match updateUser s id req now with
  | Except.error e => updateErrorStatus e
  | Except.ok _ => 200

/-- One field violation as reported by the validator: field name, the tag of
the rule that fired, and the rule's parameter. -/
structure FieldError where
  field : String
  tag : String
  param : String
deriving DecidableEq

/-- The switch in model.GetValidationErrors selecting the message by tag. -/
def validationMessage (tag param : String) : String :=
  if tag == "required" then "This field is required"
  else if tag == "email" then "Must be a valid email address"
  else if tag == "min" then "Must be at least " ++ param ++ " characters long"
  else if tag == "max" then "Must be at most " ++ param ++ " characters long"
  else if tag == "oneof" then "Must be one of: " ++ param
  else if tag == "e164" then "Must be a valid phone number in E164 format"
  else "Invalid value"

/-- Go map assignment `m[k] = v` on an association-list model: overwrite the
entry if the key is present, append otherwise. -/
def insertError (m : List (String × String)) (k v : String) : List (String × String) :=
  if m.any (fun p => p.1 == k) then
    m.map (fun p => if p.1 == k then (k, v) else p)
  else
    m ++ [(k, v)]

/-- model.GetValidationErrors: fold every reported field error into one map. -/
def getValidationErrors (errs : List FieldError) : List (String × String) :=
  errs.foldl (fun m fe => insertError m fe.field (validationMessage fe.tag fe.param)) []

/-! ## Basic equations for the store operations -/

theorem createUser_dup (s : UserService) (req : CreateUserRequest) (now : Int)
    (h : s.users.any (fun u => u.email == req.email) = true) :
    createUser s req now = Except.error (duplicateEmailMsg req.email) := by
  simp [createUser, h]

theorem createUser_fresh (s : UserService) (req : CreateUserRequest) (now : Int)
    (h : s.users.any (fun u => u.email == req.email) = false) :
    createUser s req now =
      Except.ok ({ users := s.users ++ [newRecord s req now], nextID := s.nextID + 1 },
        newRecord s req now) := by
  simp [createUser, h]

theorem createUser_ok_elim {s : UserService} {req : CreateUserRequest} {now : Int}
    {s2 : UserService} {u : User}
    (h : createUser s req now = Except.ok (s2, u)) :
    u = newRecord s req now ∧
    s2 = { users := s.users ++ [newRecord s req now], nextID := s.nextID + 1 } ∧
    s.users.any (fun v => v.email == req.email) = false := by
  by_cases hdup : s.users.any (fun v => v.email == req.email) = true
  · rw [createUser_dup s req now hdup] at h
    exact absurd h (by simp)
  · have hf : s.users.any (fun v => v.email == req.email) = false := by simpa using hdup
    rw [createUser_fresh s req now hf] at h
    obtain ⟨h1, h2⟩ := Prod.mk.injEq .. ▸ (Except.ok.injEq .. ▸ h)
    exact ⟨h2.symm, h1.symm, hf⟩

theorem applyOp_create_eq (s : UserService) (req : CreateUserRequest) (now : Int) :
    applyOp s (Op.create req now) =
      if s.users.any (fun u => u.email == req.email) = true then s
      else { users := s.users ++ [newRecord s req now], nextID := s.nextID + 1 } := by
  by_cases hdup : s.users.any (fun u => u.email == req.email) = true
  · simp [applyOp, createUser_dup s req now hdup, hdup]
  · have hf : s.users.any (fun u => u.email == req.email) = false := by simpa using hdup
    simp [applyOp, createUser_fresh s req now hf, hf]

theorem updateUser_notFound (s : UserService) (id : Int) (req : UpdateUserRequest) (now : Int)
    (h : s.users.find? (fun u => u.id == id) = none) :
    updateUser s id req now = Except.error (notFoundMsg id) := by
  simp [updateUser, h]

theorem updateUser_collision (s : UserService) (id : Int) (req : UpdateUserRequest) (now : Int)
    {user : User} (hfind : s.users.find? (fun u => u.id == id) = some user)
    (hc : emailCollides s id user req = true) :
    updateUser s id req now = Except.error (duplicateEmailMsg (req.email.getD "")) := by
  simp [updateUser, hfind, hc]

theorem updateUser_ok (s : UserService) (id : Int) (req : UpdateUserRequest) (now : Int)
    {user : User} (hfind : s.users.find? (fun u => u.id == id) = some user)
    (hc : emailCollides s id user req = false) :
    updateUser s id req now =
      Except.ok
        ({ s with users := s.users.map (fun u => if u.id == id then applyUpdate u req now else u) },
         applyUpdate user req now) := by
  simp [updateUser, hfind, hc]

theorem applyOp_delete_eq (s : UserService) (id : Int) :
    applyOp s (Op.delete id) =
      if s.users.any (fun u => u.id == id) = true
      then { s with users := s.users.filter (fun u => u.id != id) }
      else s := by
  by_cases h : s.users.any (fun u => u.id == id) = true
  · simp [applyOp, deleteUser, h]
  · have hf : s.users.any (fun u => u.id == id) = false := by simpa using h
    simp [applyOp, deleteUser, hf]

/-! ## The store invariant and its preservation -/

theorem pairwise_ids_eq {l : List User} (h : l.Pairwise fun a b => a.id ≠ b.id)
    {a b : User} (ha : a ∈ l) (hb : b ∈ l) (hid : a.id = b.id) : a = b := by
  induction l with
  | nil => cases ha
  | cons x xs ih =>
    rcases List.pairwise_cons.mp h with ⟨hx, hxs⟩
    rcases List.mem_cons.mp ha with rfl | ha2
    · rcases List.mem_cons.mp hb with rfl | hb2
      · rfl
      · exact absurd hid (hx b hb2)
    · rcases List.mem_cons.mp hb with rfl | hb2
      · exact absurd hid.symm (hx a ha2)
      · exact ih hxs ha2 hb2

theorem storeInv_create (s : UserService) (req : CreateUserRequest) (now : Int)
    (h : StoreInv s) : StoreInv (applyOp s (Op.create req now)) := by
  rw [applyOp_create_eq]
  by_cases hdup : s.users.any (fun u => u.email == req.email) = true
  · simpa [hdup] using h
  · have hf : s.users.any (fun u => u.email == req.email) = false := by simpa using hdup
    have hne : ∀ a ∈ s.users, a.email ≠ req.email := by
      intro a ha
      intro hcontra
      have : s.users.any (fun u => u.email == req.email) = true :=
        List.any_eq_true.mpr ⟨a, ha, by simp [hcontra]⟩
      simp [this] at hf
    obtain ⟨hid, hem, hlt⟩ := h
    rw [if_neg (by simp [hf])]
    refine ⟨?_, ?_, ?_⟩
    · unfold idsDistinct at hid ⊢
      rw [List.pairwise_append]
      refine ⟨hid, by simp, ?_⟩
      intro a ha b hb
      simp only [List.mem_singleton] at hb
      subst hb
      have := hlt a ha
      simp only [newRecord]
      omega
    · unfold emailsDistinct at hem ⊢
      rw [List.pairwise_append]
      refine ⟨hem, by simp, ?_⟩
      intro a ha b hb
      simp only [List.mem_singleton] at hb
      subst hb
      simpa [newRecord] using hne a ha
    · intro u hu
      simp only [List.mem_append, List.mem_singleton] at hu
      rcases hu with hu | rfl
      · have := hlt u hu
        simp only
        omega
      · simp [newRecord]

theorem storeInv_delete (s : UserService) (id : Int)
    (h : StoreInv s) : StoreInv (applyOp s (Op.delete id)) := by
  rw [applyOp_delete_eq]
  obtain ⟨hid, hem, hlt⟩ := h
  by_cases hex : s.users.any (fun u => u.id == id) = true
  · rw [if_pos hex]
    refine ⟨hid.sublist (List.filter_sublist _), hem.sublist (List.filter_sublist _), ?_⟩
    intro u hu
    exact hlt u (List.mem_of_mem_filter hu)
  · rw [if_neg hex]
    exact ⟨hid, hem, hlt⟩

theorem applyUpdate_id (u : User) (req : UpdateUserRequest) (now : Int) :
    (applyUpdate u req now).id = u.id := rfl

theorem updated_id (c : Prop) [Decidable c] (req : UpdateUserRequest) (now : Int) (u : User) :
    (if c then applyUpdate u req now else u).id = u.id := by
  split <;> rfl

theorem updated_email (c : Prop) [Decidable c] (req : UpdateUserRequest) (now : Int) (u : User) :
    (if c then applyUpdate u req now else u).email =
      if c then req.email.getD u.email else u.email := by
  split <;> rfl

theorem storeInv_update (s : UserService) (id : Int) (req : UpdateUserRequest) (now : Int)
    (h : StoreInv s) : StoreInv (applyOp s (Op.update id req now)) := by
  obtain ⟨hid, hem, hlt⟩ := h
  cases hfind : s.users.find? (fun u => u.id == id) with
  | none =>
    simp only [applyOp, updateUser_notFound s id req now hfind]
    exact ⟨hid, hem, hlt⟩
  | some user =>
    by_cases hc : emailCollides s id user req = true
    · simp only [applyOp, updateUser_collision s id req now hfind hc]
      exact ⟨hid, hem, hlt⟩
    · have hcf : emailCollides s id user req = false := by simpa using hc
      simp only [applyOp, updateUser_ok s id req now hfind hcf]
      have huser_mem : user ∈ s.users := List.mem_of_find?_eq_some hfind
      have huser_id : user.id = id := by simpa using List.find?_some hfind
      refine ⟨?_, ?_, ?_⟩
      · unfold idsDistinct at hid ⊢
        simp only [List.pairwise_map]
        refine hid.imp ?_
        intro a b hab
        simpa only [updated_id] using hab
      · unfold emailsDistinct at hem ⊢
        simp only [List.pairwise_map]
        refine List.Pairwise.imp_of_mem ?_ hem
        intro a b ha hb hne
        simp only [updated_email, beq_iff_eq]
        by_cases hA : a.id = id <;> by_cases hB : b.id = id
        · have hab : a = b := pairwise_ids_eq hid ha hb (by rw [hA, hB])
          exact absurd (by rw [hab]) hne
        · -- a is the updated record, b is untouched
          have haU : a = user := pairwise_ids_eq hid ha huser_mem (by rw [hA, huser_id])
          rw [if_pos hA, if_neg hB]
          cases hreqe : req.email with
          | none => simpa using hne
          | some e =>
            simp only [Option.getD_some]
            by_cases he : e = user.email
            · rw [he, ← haU]
              exact hne
            · have hbne : (e != user.email) = true := bne_iff_ne.mpr he
              have hscan : s.users.any (fun u2 => u2.id != id && u2.email == e) = false := by
                simp only [emailCollides, hreqe, hbne, Bool.true_and] at hcf
                exact hcf
              intro hcontra
              have : s.users.any (fun u2 => u2.id != id && u2.email == e) = true :=
                List.any_eq_true.mpr ⟨b, hb, by simp [hB, hcontra.symm]⟩
              rw [this] at hscan
              cases hscan
        · -- b is the updated record, a is untouched
          have hbU : b = user := pairwise_ids_eq hid hb huser_mem (by rw [hB, huser_id])
          rw [if_neg hA, if_pos hB]
          cases hreqe : req.email with
          | none => simpa using hne
          | some e =>
            simp only [Option.getD_some]
            by_cases he : e = user.email
            · rw [he, ← hbU]
              exact hne
            · have hbne : (e != user.email) = true := bne_iff_ne.mpr he
              have hscan : s.users.any (fun u2 => u2.id != id && u2.email == e) = false := by
                simp only [emailCollides, hreqe, hbne, Bool.true_and] at hcf
                exact hcf
              intro hcontra
              have : s.users.any (fun u2 => u2.id != id && u2.email == e) = true :=
                List.any_eq_true.mpr ⟨a, ha, by simp [hA, hcontra]⟩
              rw [this] at hscan
              cases hscan
        · rw [if_neg hA, if_neg hB]
          exact hne
      · intro u hu
        simp only [List.mem_map] at hu
        obtain ⟨a, ha, rfl⟩ := hu
        have := hlt a ha
        simpa only [updated_id] using this

theorem storeInv_applyOp (s : UserService) (op : Op) (h : StoreInv s) :
    StoreInv (applyOp s op) := by
  cases op with
  | create req now => exact storeInv_create s req now h
  | update id req now => exact storeInv_update s id req now h
  | delete id => exact storeInv_delete s id h

theorem storeInv_runOps (s : UserService) (ops : List Op) (h : StoreInv s) :
    StoreInv (runOps s ops) := by
  induction ops generalizing s with
  | nil => simpa [runOps] using h
  | cons op rest ih =>
    simp only [runOps, List.foldl_cons]
    exact ih (applyOp s op) (storeInv_applyOp s op h)

theorem storeInv_new : StoreInv newUserService := by
  refine ⟨?_, ?_, ?_⟩ <;> simp [idsDistinct, emailsDistinct, idsBelowNext, newUserService]

theorem nextID_mono_applyOp (s : UserService) (op : Op) :
    s.nextID ≤ (applyOp s op).nextID := by
  cases op with
  | create req now =>
    rw [applyOp_create_eq]
    split
    · exact le_refl _
    · simp only
      omega
  | update id req now =>
    cases hfind : s.users.find? (fun u => u.id == id) with
    | none => simp [applyOp, updateUser_notFound s id req now hfind]
    | some user =>
      by_cases hc : emailCollides s id user req = true
      · simp [applyOp, updateUser_collision s id req now hfind hc]
      · have hcf : emailCollides s id user req = false := by simpa using hc
        simp [applyOp, updateUser_ok s id req now hfind hcf]
  | delete id =>
    rw [applyOp_delete_eq]
    split <;> simp

theorem nextID_mono_runOps (s : UserService) (ops : List Op) :
    s.nextID ≤ (runOps s ops).nextID := by
  induction ops generalizing s with
  | nil => simp [runOps]
  | cons op rest ih =>
    simp only [runOps, List.foldl_cons]
    exact le_trans (nextID_mono_applyOp s op) (ih (applyOp s op))

/-! ## Pagination -/

theorem take_all_eq_take (l : List User) (c p : ℕ) (hc : l.length ≤ c) (hp : l.length ≤ p) :
    l.take c = l.take p := by
  rw [List.take_of_length_le hc, List.take_of_length_le hp]

theorem tdiv_pred_eq_ceilDiv (N p : ℕ) (hp : 1 ≤ p) :
    Int.tdiv ((N : Int) + (p : Int) - 1) (p : Int) = ((N ⌈/⌉ p : ℕ) : Int) := by
  have hnum : (N : Int) + (p : Int) - 1 = ((N + p - 1 : ℕ) : Int) := by
    push_cast [Nat.cast_sub (show 1 ≤ N + p by omega)]
    omega
  rw [hnum, ← Int.ofNat_tdiv, Nat.ceilDiv_eq_add_pred_div]

theorem wrap64_id (n : Int) (h1 : -(2 ^ 63) ≤ n) (h2 : n < 2 ^ 63) : wrap64 n = n := by
  unfold wrap64
  omega

theorem listUsers_no_error (s : UserService) (page perPage : Int) (e : String) :
    listUsers s page perPage ≠ some (Except.error e) := by
  simp only [listUsers]
  split_ifs <;> simp

theorem listUsers_ok_spec (s : UserService) (page perPage : Int)
    (hpg : 1 ≤ page) (hpp : 1 ≤ perPage)
    (hb : (page - 1) * perPage + perPage < 2 ^ 63)
    (htot : (s.users.length : Int) + perPage ≤ 2 ^ 63) :
    listUsers s page perPage =
      some (Except.ok
        { users := (s.users.drop ((page - 1) * perPage).toNat).take perPage.toNat,
          meta := { page := page, perPage := perPage, total := (s.users.length : Int),
                    totalPages := ((s.users.length ⌈/⌉ perPage.toNat : ℕ) : Int) } }) := by
  have hstart0 : 0 ≤ (page - 1) * perPage := mul_nonneg (by omega) (by omega)
  have hpm : page - 1 ≤ (page - 1) * perPage := le_mul_of_one_le_right (by omega) hpp
  have hperp : ((perPage.toNat : ℕ) : Int) = perPage := Int.toNat_of_nonneg (by omega)
  have hw1 : wrap64 (page - 1) = page - 1 := wrap64_id _ (by omega) (by omega)
  have hw2 : wrap64 ((page - 1) * perPage) = (page - 1) * perPage :=
    wrap64_id _ (by omega) (by omega)
  have hw3 : wrap64 ((page - 1) * perPage + perPage) = (page - 1) * perPage + perPage :=
    wrap64_id _ (by omega) (by omega)
  have hw4 : wrap64 ((s.users.length : Int) + perPage - 1)
      = (s.users.length : Int) + perPage - 1 := wrap64_id _ (by omega) (by omega)
  have htp : Int.tdiv ((s.users.length : Int) + perPage - 1) perPage
      = ((s.users.length ⌈/⌉ perPage.toNat : ℕ) : Int) := by
    have h := tdiv_pred_eq_ceilDiv s.users.length perPage.toNat (by omega)
    rwa [hperp] at h
  have hcd : (s.users.length ⌈/⌉ perPage.toNat) ≤ s.users.length + perPage.toNat - 1 := by
    rw [Nat.ceilDiv_eq_add_pred_div]
    exact Nat.div_le_self _ _
  have hw5 : wrap64 ((s.users.length ⌈/⌉ perPage.toNat : ℕ) : Int)
      = ((s.users.length ⌈/⌉ perPage.toNat : ℕ) : Int) := by
    have hcast : ((s.users.length ⌈/⌉ perPage.toNat : ℕ) : Int)
        ≤ ((s.users.length + perPage.toNat - 1 : ℕ) : Int) := by
      exact_mod_cast hcd
    exact wrap64_id _ (by omega) (by omega)
  simp only [listUsers]
  rw [hw1, hw2, hw3, hw4, htp, hw5]
  split_ifs with h1 h2 h3 h4 h5 h6 h7
  · exfalso
    simp only [beq_iff_eq] at h1
    omega
  · rw [List.drop_eq_nil_of_le (by omega : s.users.length ≤ ((page - 1) * perPage).toNat),
      List.take_nil]
  · exfalso
    omega
  · exfalso
    omega
  · have hlen : (s.users.drop ((page - 1) * perPage).toNat).length
        = s.users.length - ((page - 1) * perPage).toNat := List.length_drop _ _
    have hcount : ((s.users.length : Int) - (page - 1) * perPage).toNat
        = s.users.length - ((page - 1) * perPage).toNat := by omega
    rw [hcount, take_all_eq_take (s.users.drop ((page - 1) * perPage).toNat)
      (s.users.length - ((page - 1) * perPage).toNat) perPage.toNat
      (by rw [hlen]) (by rw [hlen]; omega)]
  · exfalso
    omega
  · exfalso
    omega
  · rw [add_sub_cancel_left]

/-! ## Handler query-parameter parsing -/

theorem listUsersPage_pos (param : String) : 1 ≤ listUsersPage param := by
  unfold listUsersPage
  split
  · cases hA : atoi param with
    | none => simp
    | some p =>
      simp only
      split
      · rename_i hp
        omega
      · omega
  · omega

theorem listUsersPerPage_bounds (param : String) :
    1 ≤ listUsersPerPage param ∧ listUsersPerPage param ≤ 100 := by
  unfold listUsersPerPage
  split
  · cases hA : atoi param with
    | none => simp
    | some pp =>
      simp only
      split
      · rename_i hp
        simp only [Bool.and_eq_true, decide_eq_true_eq] at hp
        omega
      · omega
  · omega

theorem handlerListUsers_ok (s : UserService) (pageParam perPageParam : String)
    (hb : (listUsersPage pageParam - 1) * listUsersPerPage perPageParam
        + listUsersPerPage perPageParam < 2 ^ 63)
    (htot : (s.users.length : Int) + listUsersPerPage perPageParam ≤ 2 ^ 63) :
    handlerListUsers s pageParam perPageParam =
      some (200, some
        { users := (s.users.drop ((listUsersPage pageParam - 1) * listUsersPerPage perPageParam).toNat).take
            (listUsersPerPage perPageParam).toNat,
          meta := { page := listUsersPage pageParam, perPage := listUsersPerPage perPageParam,
                    total := (s.users.length : Int),
                    totalPages := ((s.users.length ⌈/⌉ (listUsersPerPage perPageParam).toNat : ℕ) : Int) } }) := by
  simp only [handlerListUsers]
  rw [listUsers_ok_spec s (listUsersPage pageParam) (listUsersPerPage perPageParam)
    (listUsersPage_pos pageParam) (listUsersPerPage_bounds perPageParam).1 hb htot]

theorem handlerListUsers_status (s : UserService) (a b : String) (st : Int)
    (body : Option UserListResponse)
    (h : handlerListUsers s a b = some (st, body)) : st = 200 := by
  simp only [handlerListUsers] at h
  cases hL : listUsers s (listUsersPage a) (listUsersPerPage b) with
  | none =>
    rw [hL] at h
    simp at h
  | some r =>
    cases r with
    | error e => exact absurd hL (listUsers_no_error s _ _ e)
    | ok resp =>
      rw [hL] at h
      simp only [Option.some.injEq, Prod.mk.injEq] at h
      exact h.1.symm

/-! ## Validation error collection -/

theorem insertError_self_mem (m : List (String × String)) (k v : String) :
    (k, v) ∈ insertError m k v := by
  unfold insertError
  split
  · rename_i h
    obtain ⟨p, hp, hpk⟩ := List.any_eq_true.mp h
    exact List.mem_map.mpr ⟨p, hp, by simp [hpk]⟩
  · simp

theorem insertError_key_stable (m : List (String × String)) (k v f : String)
    (h : ∃ x, (f, x) ∈ m) : ∃ x, (f, x) ∈ insertError m k v := by
  obtain ⟨x, hx⟩ := h
  unfold insertError
  split
  · by_cases hfk : f = k
    · exact ⟨v, List.mem_map.mpr ⟨(f, x), hx, by simp [hfk]⟩⟩
    · exact ⟨x, List.mem_map.mpr ⟨(f, x), hx, by simp [hfk]⟩⟩
  · exact ⟨x, List.mem_append.mpr (Or.inl hx)⟩

theorem insertError_sources (m : List (String × String)) (k v f x : String)
    (h : (f, x) ∈ insertError m k v) : (f, x) ∈ m ∨ (f = k ∧ x = v) := by
  unfold insertError at h
  split at h
  · obtain ⟨p, hp, hpx⟩ := List.mem_map.mp h
    by_cases hpk : p.1 = k
    · right
      rw [if_pos (by simp [hpk])] at hpx
      exact ⟨(Prod.mk.injEq .. ▸ hpx.symm).1, (Prod.mk.injEq .. ▸ hpx.symm).2⟩
    · left
      rw [if_neg (by simp [hpk])] at hpx
      exact hpx ▸ hp
  · rcases List.mem_append.mp h with h2 | h2
    · exact Or.inl h2
    · right
      simp only [List.mem_singleton] at h2
      exact ⟨(Prod.mk.injEq .. ▸ h2).1, (Prod.mk.injEq .. ▸ h2).2⟩

theorem getValidationErrors_fold_stable (errs : List FieldError)
    (acc : List (String × String)) (f : String) (h : ∃ x, (f, x) ∈ acc) :
    ∃ x, (f, x) ∈ errs.foldl
      (fun m fe => insertError m fe.field (validationMessage fe.tag fe.param)) acc := by
  induction errs generalizing acc with
  | nil => simpa using h
  | cons fe rest ih =>
    simp only [List.foldl_cons]
    exact ih _ (insertError_key_stable acc fe.field (validationMessage fe.tag fe.param) f h)

theorem getValidationErrors_fold_complete (errs : List FieldError)
    (acc : List (String × String)) (fe : FieldError) (h : fe ∈ errs) :
    ∃ x, (fe.field, x) ∈ errs.foldl
      (fun m g => insertError m g.field (validationMessage g.tag g.param)) acc := by
  induction errs generalizing acc with
  | nil => cases h
  | cons g rest ih =>
    simp only [List.foldl_cons]
    rcases List.mem_cons.mp h with rfl | h2
    · exact getValidationErrors_fold_stable rest _ fe.field
        ⟨validationMessage fe.tag fe.param, insertError_self_mem acc _ _⟩
    · exact ih _ h2

theorem getValidationErrors_fold_sources (errs : List FieldError)
    (acc : List (String × String)) (f x : String)
    (h : (f, x) ∈ errs.foldl
      (fun m g => insertError m g.field (validationMessage g.tag g.param)) acc) :
    (f, x) ∈ acc ∨ ∃ fe ∈ errs, fe.field = f ∧ x = validationMessage fe.tag fe.param := by
  induction errs generalizing acc with
  | nil => exact Or.inl (by simpa using h)
  | cons g rest ih =>
    simp only [List.foldl_cons] at h
    rcases ih _ h with h2 | h2
    · rcases insertError_sources acc g.field (validationMessage g.tag g.param) f x h2 with h3 | h3
      · exact Or.inl h3
      · exact Or.inr ⟨g, List.mem_cons_self g rest, h3.1.symm, h3.2⟩
    · obtain ⟨fe, hfe, hx⟩ := h2
      exact Or.inr ⟨fe, List.mem_cons_of_mem g hfe, hx⟩

/-! ## Concrete sample data used to instantiate the theorems -/

def reqA : CreateUserRequest :=
  { email := "a@x.com", firstName := "Ann", lastName := "Lee", age := 30, phone := "" }

def userA : User :=
  { id := 1, email := "a@x.com", firstName := "Ann", lastName := "Lee", age := 30,
    phone := "", status := "active", createdAt := 7, updatedAt := 7 }

def stA : UserService := { users := [userA], nextID := 2 }

def userB : User :=
  { id := 2, email := "b@x.com", firstName := "Bob", lastName := "Kim", age := 40,
    phone := "", status := "active", createdAt := 8, updatedAt := 8 }

def stAB : UserService := { users := [userA, userB], nextID := 3 }

def reqAge31 : UpdateUserRequest :=
  { email := none, firstName := none, lastName := none, age := some 31, phone := none,
    status := none }

def reqEmailA : UpdateUserRequest :=
  { email := some "a@x.com", firstName := none, lastName := none, age := none, phone := none,
    status := none }

/-! ## Claim theorems -/

/-- Claim C5: in every store state reachable by any sequence of Create, Update
and Delete operations, no two live records have the same email string. -/
theorem email_uniqueness_invariant (ops : List Op) :
    (runOps newUserService ops).users.Pairwise (fun a b => a.email ≠ b.email) :=
  (storeInv_runOps newUserService ops storeInv_new).2.1

/-- Claim C3: the identifier counter starts at 1 and advances by exactly 1 on
each successful create and never otherwise; a successful create returns the
record with id equal to the counter, status "active", both timestamps equal to
the call's current time, the payload's fields, and inserts it; every returned
id exceeds all live ids, and across any sequence of operations (deletes
included) a later create returns a strictly larger id than an earlier one, so
ids are strictly increasing and never reused. -/
theorem create_id_allocation :
    (newUserService.nextID = 1)
    ∧ (∀ (s : UserService) (req : CreateUserRequest) (now : Int) (s2 : UserService) (u : User),
        createUser s req now = Except.ok (s2, u) →
        u.id = s.nextID ∧ s2.nextID = s.nextID + 1 ∧ u.status = "active"
        ∧ u.createdAt = now ∧ u.updatedAt = now ∧ u.email = req.email
        ∧ u.firstName = req.firstName ∧ u.lastName = req.lastName
        ∧ u.age = req.age ∧ u.phone = req.phone ∧ u ∈ s2.users)
    ∧ (∀ (s : UserService) (op : Op), s.nextID ≤ (applyOp s op).nextID)
    ∧ (∀ (ops : List Op) (req : CreateUserRequest) (now : Int) (s2 : UserService) (u : User),
        createUser (runOps newUserService ops) req now = Except.ok (s2, u) →
        ∀ v ∈ (runOps newUserService ops).users, v.id < u.id)
    ∧ (∀ (ops1 : List Op) (req1 : CreateUserRequest) (now1 : Int) (s1 : UserService) (u1 : User)
        (ops2 : List Op) (req2 : CreateUserRequest) (now2 : Int) (s3 : UserService) (u2 : User),
        createUser (runOps newUserService ops1) req1 now1 = Except.ok (s1, u1) →
        createUser (runOps s1 ops2) req2 now2 = Except.ok (s3, u2) →
        u1.id < u2.id) := by
  refine ⟨rfl, ?_, nextID_mono_applyOp, ?_, ?_⟩
  · intro s req now s2 u h
    obtain ⟨hu, hs2, _⟩ := createUser_ok_elim h
    subst hu
    subst hs2
    refine ⟨rfl, rfl, rfl, rfl, rfl, rfl, rfl, rfl, rfl, rfl, ?_⟩
    simp [newRecord]
  · intro ops req now s2 u h v hv
    obtain ⟨hu, _, _⟩ := createUser_ok_elim h
    have hlt := (storeInv_runOps newUserService ops storeInv_new).2.2 v hv
    rw [hu]
    exact hlt
  · intro ops1 req1 now1 s1 u1 ops2 req2 now2 s3 u2 h1 h2
    obtain ⟨hu1, hs1, _⟩ := createUser_ok_elim h1
    obtain ⟨hu2, _, _⟩ := createUser_ok_elim h2
    have hmono := nextID_mono_runOps s1 ops2
    have e1 : u1.id = (runOps newUserService ops1).nextID := by rw [hu1]; rfl
    have e2 : s1.nextID = (runOps newUserService ops1).nextID + 1 := by rw [hs1]
    have e3 : u2.id = (runOps s1 ops2).nextID := by rw [hu2]; rfl
    omega

/-- Closed instance of `create_id_allocation`: creating in the empty store at
time 7 yields the concrete record `userA` whose id is the counter value. -/
theorem create_id_allocation_witness : userA.id = newUserService.nextID :=
  (create_id_allocation.2.1 newUserService reqA 7 stA userA rfl).1

/-- Claim C2: Create fails (with the duplicate-email error) iff some live
record already carries the payload's email, compared case-sensitively; on that
failure the store state — records and counter alike — is unchanged; with no
collision the create succeeds. -/
theorem create_duplicate_email (s : UserService) (req : CreateUserRequest) (now : Int) :
    ((createUser s req now = Except.error (duplicateEmailMsg req.email)) ↔
      ∃ u ∈ s.users, u.email = req.email)
    ∧ ((∃ u ∈ s.users, u.email = req.email) → applyOp s (Op.create req now) = s)
    ∧ ((∀ u ∈ s.users, u.email ≠ req.email) →
        ∃ s2 u, createUser s req now = Except.ok (s2, u)) := by
  by_cases hdup : s.users.any (fun u => u.email == req.email) = true
  · obtain ⟨u, hu, he⟩ := List.any_eq_true.mp hdup
    exact ⟨⟨fun _ => ⟨u, hu, by simpa using he⟩, fun _ => createUser_dup s req now hdup⟩,
      fun _ => by rw [applyOp_create_eq, if_pos hdup],
      fun hno => absurd (by simpa using he) (hno u hu)⟩
  · have hf : s.users.any (fun u => u.email == req.email) = false := by simpa using hdup
    have hnex : ¬ ∃ u ∈ s.users, u.email = req.email := by
      rintro ⟨u, hu, he⟩
      have h2 : s.users.any (fun v => v.email == req.email) = true :=
        List.any_eq_true.mpr ⟨u, hu, by simp [he]⟩
      rw [h2] at hf
      cases hf
    refine ⟨⟨fun hc => ?_, fun hex => absurd hex hnex⟩, fun hex => absurd hex hnex, fun _ => ?_⟩
    · rw [createUser_fresh s req now hf] at hc
      exact absurd hc (by simp)
    · exact ⟨_, _, createUser_fresh s req now hf⟩

/-- Closed instance of `create_duplicate_email`: re-creating `userA`'s email
in the one-user store leaves the state untouched. -/
theorem create_duplicate_email_witness : applyOp stA (Op.create reqA 9) = stA :=
  (create_duplicate_email stA reqA 9).2.1 ⟨userA, by simp [stA], rfl⟩

/-- Claim C7: Update signals not-found when no record carries the id; with a
present email differing from the record's current one it signals the
duplicate-email error exactly when some other record carries that email, and
then leaves the store unchanged; setting the email to its own current value
skips the uniqueness scan and succeeds. -/
theorem update_notfound_and_collision (s : UserService) (id : Int)
    (req : UpdateUserRequest) (now : Int) :
    ((∀ u ∈ s.users, u.id ≠ id) → updateUser s id req now = Except.error (notFoundMsg id))
    ∧ (∀ (u0 : User) (e : String),
        s.users.find? (fun u => u.id == id) = some u0 → req.email = some e → e ≠ u0.email →
        ((updateUser s id req now = Except.error (duplicateEmailMsg e)) ↔
          ∃ u2 ∈ s.users, u2.id ≠ id ∧ u2.email = e))
    ∧ (∀ (u0 : User) (e : String),
        s.users.find? (fun u => u.id == id) = some u0 → req.email = some e → e ≠ u0.email →
        (∃ u2 ∈ s.users, u2.id ≠ id ∧ u2.email = e) → applyOp s (Op.update id req now) = s)
    ∧ (∀ u0 : User,
        s.users.find? (fun u => u.id == id) = some u0 → req.email = some u0.email →
        ∃ s2 uret, updateUser s id req now = Except.ok (s2, uret)) := by
  refine ⟨?_, ?_, ?_, ?_⟩
  · intro hno
    have hfind : s.users.find? (fun u => u.id == id) = none :=
      List.find?_eq_none.mpr (fun u hu => by simpa using hno u hu)
    exact updateUser_notFound s id req now hfind
  · intro u0 e hfind hreqe hne
    have hbne : (e != u0.email) = true := bne_iff_ne.mpr hne
    constructor
    · intro h
      by_cases hs : s.users.any (fun u2 => u2.id != id && u2.email == e) = true
      · obtain ⟨u2, hu2, hb⟩ := List.any_eq_true.mp hs
        simp only [Bool.and_eq_true, bne_iff_ne, beq_iff_eq] at hb
        exact ⟨u2, hu2, hb.1, hb.2⟩
      · have hsf : s.users.any (fun u2 => u2.id != id && u2.email == e) = false := by
          simpa using hs
        have hcf : emailCollides s id u0 req = false := by
          simp [emailCollides, hreqe, hsf]
        rw [updateUser_ok s id req now hfind hcf] at h
        exact absurd h (by simp)
    · rintro ⟨u2, hu2, hne2, he2⟩
      have hs : s.users.any (fun v => v.id != id && v.email == e) = true :=
        List.any_eq_true.mpr ⟨u2, hu2, by simp [hne2, he2]⟩
      have hct : emailCollides s id u0 req = true := by
        simp [emailCollides, hreqe, hbne, hs]
      have h := updateUser_collision s id req now hfind hct
      simpa [hreqe] using h
  · intro u0 e hfind hreqe hne hex
    obtain ⟨u2, hu2, hne2, he2⟩ := hex
    have hbne : (e != u0.email) = true := bne_iff_ne.mpr hne
    have hs : s.users.any (fun v => v.id != id && v.email == e) = true :=
      List.any_eq_true.mpr ⟨u2, hu2, by simp [hne2, he2]⟩
    have hct : emailCollides s id u0 req = true := by
      simp [emailCollides, hreqe, hbne, hs]
    simp [applyOp, updateUser_collision s id req now hfind hct]
  · intro u0 hfind hreqe
    have hcf : emailCollides s id u0 req = false := by
      simp [emailCollides, hreqe]
    exact ⟨_, _, updateUser_ok s id req now hfind hcf⟩

/-- Closed instance of `update_notfound_and_collision`: updating the missing
id 5 in the one-user store reports the not-found error. -/
theorem update_notfound_witness :
    updateUser stA 5 reqAge31 9 = Except.error (notFoundMsg 5) :=
  (update_notfound_and_collision stA 5 reqAge31 9).1 (by decide)

/-- Claim C6: a successful partial update applies exactly the present fields,
keeps the id, creation timestamp and every absent field, refreshes the update
timestamp to the call time (strictly increasing it whenever the clock
advanced), keeps the counter, and leaves every record with a different id —
and the list length — untouched. -/
theorem update_partial_fields (s : UserService) (id : Int) (req : UpdateUserRequest) (now : Int)
    (s2 : UserService) (uret u0 : User)
    (hup : updateUser s id req now = Except.ok (s2, uret))
    (hfind : s.users.find? (fun u => u.id == id) = some u0) :
    uret.id = u0.id ∧ uret.createdAt = u0.createdAt
    ∧ uret.email = req.email.getD u0.email
    ∧ uret.firstName = req.firstName.getD u0.firstName
    ∧ uret.lastName = req.lastName.getD u0.lastName
    ∧ uret.age = req.age.getD u0.age
    ∧ uret.phone = req.phone.getD u0.phone
    ∧ uret.status = req.status.getD u0.status
    ∧ uret.updatedAt = now
    ∧ (u0.updatedAt < now → u0.updatedAt < uret.updatedAt)
    ∧ s2.nextID = s.nextID
    ∧ s2.users.length = s.users.length
    ∧ (∀ (i : ℕ) (hi : i < s.users.length) (hi2 : i < s2.users.length),
        (s.users.get ⟨i, hi⟩).id ≠ id → s2.users.get ⟨i, hi2⟩ = s.users.get ⟨i, hi⟩) := by
  by_cases hc : emailCollides s id u0 req = true
  · rw [updateUser_collision s id req now hfind hc] at hup
    exact absurd hup (by simp)
  · have hcf : emailCollides s id u0 req = false := by simpa using hc
    rw [updateUser_ok s id req now hfind hcf] at hup
    simp only [Except.ok.injEq, Prod.mk.injEq] at hup
    obtain ⟨hs2, huret⟩ := hup
    subst hs2
    subst huret
    refine ⟨rfl, rfl, rfl, rfl, rfl, rfl, rfl, rfl, rfl, fun h => h, rfl, by simp, ?_⟩
    intro i hi hi2 hne
    simp only [List.get_eq_getElem, List.getElem_map]
    rw [if_neg (by simpa using hne)]

def userA31 : User :=
  { id := 1, email := "a@x.com", firstName := "Ann", lastName := "Lee", age := 31,
    phone := "", status := "active", createdAt := 7, updatedAt := 9 }

def stA31 : UserService := { users := [userA31], nextID := 2 }

/-- Closed instance of `update_partial_fields`: patching only the age keeps
the id and creation timestamp of the stored record. -/
theorem update_partial_fields_witness :
    userA31.id = userA.id ∧ userA31.createdAt = userA.createdAt :=
  ⟨(update_partial_fields stA 1 reqAge31 9 stA31 userA31 userA rfl rfl).1,
   (update_partial_fields stA 1 reqAge31 9 stA31 userA31 userA rfl rfl).2.1⟩

/-- Claim C4 (amended): for positive page and perPage whose pagination
arithmetic stays within int64 — (page-1)*perPage + perPage < 2^63 and
total + perPage ≤ 2^63 — List reports the total, total pages equal to the
ceiling of total over perPage, and exactly the records at positions
[(page-1)*perPage, min(page*perPage, total)) of the internal enumeration;
past-the-end pages give an empty list with the same metadata and no error.
Outside that range the Go 64-bit arithmetic wraps and the window is wrong
(see `list_pagination_counterexample`). -/
theorem list_pagination (s : UserService) (page perPage : Int)
    (hpg : 1 ≤ page) (hpp : 1 ≤ perPage)
    (hb : (page - 1) * perPage + perPage < 2 ^ 63)
    (htot : (s.users.length : Int) + perPage ≤ 2 ^ 63) :
    ∃ resp : UserListResponse,
      listUsers s page perPage = some (Except.ok resp)
      ∧ resp.meta.page = page ∧ resp.meta.perPage = perPage
      ∧ resp.meta.total = (s.users.length : Int)
      ∧ resp.meta.totalPages = ((s.users.length ⌈/⌉ perPage.toNat : ℕ) : Int)
      ∧ resp.users = (s.users.drop ((page - 1) * perPage).toNat).take perPage.toNat
      ∧ ((s.users.length : Int) ≤ (page - 1) * perPage → resp.users = []) := by
  refine ⟨_, listUsers_ok_spec s page perPage hpg hpp hb htot, rfl, rfl, rfl, rfl, rfl, ?_⟩
  intro h
  simp only
  rw [List.drop_eq_nil_of_le (by omega : s.users.length ≤ ((page - 1) * perPage).toNat),
    List.take_nil]

/-- The claim as stated fails on the code: at page = 2^62 + 1 and perPage = 4
(both positive) the start offset (page-1)*perPage wraps in int64 to 0, so the
store returns the first record of the one-user store, while the claim's
position window [(page-1)*perPage, min(page*perPage, total)) is empty. -/
theorem list_pagination_counterexample :
    listUsers stA (2 ^ 62 + 1) 4 =
      some (Except.ok
        { users := [userA],
          meta := { page := 2 ^ 62 + 1, perPage := 4, total := 1, totalPages := 1 } })
    ∧ (stA.users.drop ((2 ^ 62 + 1 - 1) * 4 : Int).toNat).take ((4 : Int)).toNat = []
    ∧ ([userA] : List User) ≠ [] :=
  ⟨rfl, rfl, by simp⟩

/-- Closed instance of `list_pagination`: page 2 of the one-user store exists
(and is the empty page). -/
theorem list_pagination_witness : (listUsers stA 2 10).isSome = true := by
  obtain ⟨resp, h, _⟩ := list_pagination stA 2 10 (by norm_num) (by norm_num) (by norm_num)
    (by norm_num [stA])
  rw [h]
  rfl

/-- Claim C10 (amended): the store's List returns a nil error value on every
path that returns at all, so the handler's 500 error branch is dead, and List
returns successfully for every positive page and perPage whose pagination
arithmetic stays within int64; the store itself has no guard — perPage = 0
hits the unguarded division and an overflowing page wraps the start offset
negative and panics (both modelled as `none`, see
`list_total_no_guard_counterexample`) — so totality rests on the handler
clamping per_page into [1, 100], which bounds everything except page. -/
theorem list_total_no_guard :
    (∀ (s : UserService) (page perPage : Int), 1 ≤ page → 1 ≤ perPage →
      (page - 1) * perPage + perPage < 2 ^ 63 → (s.users.length : Int) + perPage ≤ 2 ^ 63 →
      ∃ resp, listUsers s page perPage = some (Except.ok resp))
    ∧ (∀ (s : UserService) (page perPage : Int) (e : String),
        listUsers s page perPage ≠ some (Except.error e))
    ∧ (∀ (s : UserService) (page : Int), listUsers s page 0 = none)
    ∧ (∀ param : String, 1 ≤ listUsersPerPage param ∧ listUsersPerPage param ≤ 100)
    ∧ (∀ (s : UserService) (a b : String) (st : Int) (body : Option UserListResponse),
        handlerListUsers s a b = some (st, body) → st = 200) :=
  ⟨fun s page perPage h1 h2 h3 h4 => ⟨_, listUsers_ok_spec s page perPage h1 h2 h3 h4⟩,
    listUsers_no_error, fun _ _ => rfl, listUsersPerPage_bounds, handlerListUsers_status⟩

/-- The claim's totality as stated fails on the code: page = 10^17 and
perPage = 100 are both positive, yet the start offset wraps negative in int64
and the store panics on the negative slice index (`none`). -/
theorem list_total_no_guard_counterexample :
    (1 : Int) ≤ 10 ^ 17 ∧ (1 : Int) ≤ 100 ∧ listUsers stA (10 ^ 17) 100 = none :=
  ⟨by norm_num, by norm_num, rfl⟩

/-- Closed instance of `list_total_no_guard`: listing page 3 with perPage 7 on
the empty store succeeds. -/
theorem list_total_no_guard_witness : (listUsers newUserService 3 7).isSome = true := by
  obtain ⟨resp, h⟩ := list_total_no_guard.1 newUserService 3 7 (by norm_num) (by norm_num)
    (by norm_num) (by norm_num [newUserService])
  rw [h]
  rfl

/-- Claim C8 (amended): the list handler defaults page to 1 whenever the
parameter is absent, unparseable or non-positive, defaults per_page to 10
whenever it is absent, unparseable or outside (0, 100], accepts in-range
values as given, and answers 200 whenever the pagination arithmetic on the
resulting values stays within int64; a large in-range page overflows the
start offset and panics in the store instead — surfaced by the recovery
middleware as 500, not 200 (see `list_query_defaults_counterexample`). -/
theorem list_query_defaults :
    (∀ param : String,
      (param = "" ∨ atoi param = none ∨ ∀ p : Int, atoi param = some p → p ≤ 0) →
      listUsersPage param = 1)
    ∧ (∀ (param : String) (p : Int), atoi param = some p → 0 < p → listUsersPage param = p)
    ∧ (∀ param : String,
      (param = "" ∨ atoi param = none ∨ ∀ p : Int, atoi param = some p → (p ≤ 0 ∨ 100 < p)) →
      listUsersPerPage param = 10)
    ∧ (∀ (param : String) (p : Int), atoi param = some p → 0 < p → p ≤ 100 →
        listUsersPerPage param = p)
    ∧ (∀ (s : UserService) (a b : String),
        (listUsersPage a - 1) * listUsersPerPage b + listUsersPerPage b < 2 ^ 63 →
        (s.users.length : Int) + listUsersPerPage b ≤ 2 ^ 63 →
        ∃ resp : UserListResponse, handlerListUsers s a b = some (200, some resp)) := by
  refine ⟨?_, ?_, ?_, ?_, fun s a b hb htot => ⟨_, handlerListUsers_ok s a b hb htot⟩⟩
  · intro param h
    rcases h with rfl | h | h
    · rfl
    · unfold listUsersPage
      split
      · rw [h]
      · rfl
    · unfold listUsersPage
      split
      · cases hA : atoi param with
        | none => rfl
        | some p =>
          have hp := h p hA
          simp only
          rw [if_neg (by omega)]
      · rfl
  · intro param p hA hp
    have hne : (param != "") = true := by
      by_cases he : param = ""
      · subst he
        rw [show atoi "" = none from rfl] at hA
        cases hA
      · simpa using he
    unfold listUsersPage
    rw [if_pos hne, hA]
    show (if p > 0 then p else 1) = p
    rw [if_pos hp]
  · intro param h
    rcases h with rfl | h | h
    · rfl
    · unfold listUsersPerPage
      split
      · rw [h]
      · rfl
    · unfold listUsersPerPage
      split
      · cases hA : atoi param with
        | none => rfl
        | some p =>
          have hp := h p hA
          simp only
          rw [if_neg (by simp only [Bool.and_eq_true, decide_eq_true_eq]; omega)]
      · rfl
  · intro param p hA hp1 hp2
    have hne : (param != "") = true := by
      by_cases he : param = ""
      · subst he
        rw [show atoi "" = none from rfl] at hA
        cases hA
      · simpa using he
    unfold listUsersPerPage
    rw [if_pos hne, hA]
    show (if (p > 0 && p ≤ 100) = true then p else 10) = p
    rw [if_pos (by simp only [Bool.and_eq_true, decide_eq_true_eq]; omega)]

/-- The claim's always-200 conjunct as stated fails on the code: the query
page=100000000000000000&per_page=100 parses to positive in-range values, yet
the wrapped start offset is negative and the store panics (`none`), reaching
the client as 500 through the recovery middleware, not 200. -/
theorem list_query_defaults_counterexample :
    listUsersPage "100000000000000000" = 100000000000000000
    ∧ listUsersPerPage "100" = 100
    ∧ handlerListUsers stA "100000000000000000" "100" = none :=
  ⟨rfl, rfl, rfl⟩

/-- Closed instance of `list_query_defaults`: an absent page parameter yields
1 and an unparseable per_page yields 10. -/
theorem list_query_defaults_witness :
    listUsersPage "" = 1 ∧ listUsersPerPage "abc" = 10 :=
  ⟨list_query_defaults.1 "" (Or.inl rfl),
   list_query_defaults.2.2.1 "abc" (Or.inr (Or.inl rfl))⟩

/-- Claim C9: every violating field is collected into the one reported map,
every reported entry stems from a violation that fired, and the reason string
is selected by rule kind exactly as the switch writes it, with "Invalid value"
for any other rule. -/
theorem validation_errors_collected :
    (∀ (errs : List FieldError) (fe : FieldError), fe ∈ errs →
      ∃ msg, (fe.field, msg) ∈ getValidationErrors errs)
    ∧ (∀ (errs : List FieldError) (f m : String), (f, m) ∈ getValidationErrors errs →
      ∃ fe ∈ errs, fe.field = f ∧ m = validationMessage fe.tag fe.param)
    ∧ (∀ param : String, validationMessage "required" param = "This field is required")
    ∧ (∀ param : String, validationMessage "email" param = "Must be a valid email address")
    ∧ (∀ param : String,
        validationMessage "min" param = "Must be at least " ++ param ++ " characters long")
    ∧ (∀ param : String,
        validationMessage "max" param = "Must be at most " ++ param ++ " characters long")
    ∧ (∀ param : String, validationMessage "oneof" param = "Must be one of: " ++ param)
    ∧ (∀ param : String,
        validationMessage "e164" param = "Must be a valid phone number in E164 format")
    ∧ (∀ tag param : String, tag ∉ ["required", "email", "min", "max", "oneof", "e164"] →
        validationMessage tag param = "Invalid value") := by
  refine ⟨?_, ?_, fun _ => rfl, fun _ => rfl, fun _ => rfl, fun _ => rfl, fun _ => rfl,
    fun _ => rfl, ?_⟩
  · intro errs fe h
    exact getValidationErrors_fold_complete errs [] fe h
  · intro errs f m h
    rcases getValidationErrors_fold_sources errs [] f m h with h2 | h2
    · cases h2
    · exact h2
  · intro tag param h
    simp only [List.mem_cons, not_or] at h
    obtain ⟨h1, h2, h3, h4, h5, h6, _⟩ := h
    simp [validationMessage, h1, h2, h3, h4, h5, h6]

/-- Closed instance of `validation_errors_collected`: a required-violation on
the Email field is reported under that field with the required-rule message. -/
theorem validation_errors_collected_witness :
    validationMessage "required" "" = "This field is required" ∧
    (getValidationErrors [{ field := "Email", tag := "required", param := "" }]).any
      (fun q => q.1 == "Email") = true := by
  refine ⟨validation_errors_collected.2.2.1 "", ?_⟩
  obtain ⟨msg, hm⟩ := validation_errors_collected.1
    [{ field := "Email", tag := "required", param := "" }]
    { field := "Email", tag := "required", param := "" } (by simp)
  exact List.any_eq_true.mpr ⟨("Email", msg), hm, by simp⟩

/-- Claim C1 (code bug): the service's error strings are
"user with ID %d not found" and "user with email %s already exists", but
Handler.UpdateUser compares against the literals "user not found" and
"email already exists", so both store failures fall through to the 500
default: a not-found update and a duplicate-email update both answer 500,
never 404 or 409. -/
theorem update_handler_status_bug :
    handlerUpdateUser newUserService 1 reqAge31 5 = 500
    ∧ handlerUpdateUser stAB 2 reqEmailA 9 = 500
    ∧ updateErrorStatus (notFoundMsg 1) = 500
    ∧ updateErrorStatus (duplicateEmailMsg "a@x.com") = 500
    ∧ updateUser newUserService 1 reqAge31 5 = Except.error (notFoundMsg 1)
    ∧ updateUser stAB 2 reqEmailA 9 = Except.error (duplicateEmailMsg "a@x.com") :=
  ⟨rfl, rfl, rfl, rfl, rfl, rfl⟩
